import Mathlib

/-!
Verification development for the llm-ids detection pipeline.

The Python sources under `app/` are shallowly embedded here:

* `app/scoring/features.py`  → text helpers, `compute_session_features`,
  `compute_turn_features`
* `app/scoring/rules.py`     → the seven rule evaluators (only those needed
  by the claims are embedded)
* `app/scoring/engine.py`    → `score_session` (four rules; three of the
  imported rule functions do not exist in `rules.py` and are modelled from
  the spec, see their doc comments)
* `app/router/policy.py`     → `detect_hard_safety_violation`, `route_decision`
* `app/scoring/timeline.py`  → `build_timeline`
* `app/alerts/service.py`    → `compute_confidence`, `is_duplicate`,
  `maybe_emit_alert`
* `app/alerts/store.py`      → `create_alert_if_needed` over a pure list model
  of the sqlite `alerts` table (unique `dedupe_key` column)

Python dicts with a fixed key set are embedded as structures; keys that a
consumer reads via `.get(k, default)` but that the producer never writes are
embedded as `Option` fields defaulting to `none` (so `.get` becomes
`Option.getD`).  Machine integers are `Int`/`Nat` (no overflow is reachable:
all arithmetic stays tiny), similarities are exact rationals `ℚ`.
-/

namespace LlmIds

/-- ASCII apostrophe (written via its code point to keep source plain). -/
def apos : Char := Char.ofNat 39

/-! ## Text utilities (`app/scoring/features.py`) -/

/-- Embeds `normalize_text`: lowercase, then fold the six Unicode curly
quotes / dashes to their ASCII equivalents.  Each Python replacement is a
single-character substitution, so it is a per-character map. -/
def foldChar (c : Char) : Char :=
  if c = Char.ofNat 0x2019 then apos
  else if c = Char.ofNat 0x2018 then apos
  else if c = Char.ofNat 0x201c then Char.ofNat 34
  else if c = Char.ofNat 0x201d then Char.ofNat 34
  else if c = Char.ofNat 0x2014 then Char.ofNat 45
  else if c = Char.ofNat 0x2013 then Char.ofNat 45
  else c

def normalize_text (s : List Char) : List Char :=
  (s.map Char.toLower).map foldChar

/-- Character class of the token regex `[a-z0-9']` from `_tokens`. -/
def isTokChar (c : Char) : Bool :=
  (decide (0x61 ≤ c.toNat) && decide (c.toNat ≤ 0x7a)) ||
  (decide (0x30 ≤ c.toNat) && decide (c.toNat ≤ 0x39)) ||
  (c == apos)

/-- Maximal runs of token characters: `re.findall(r"[a-z0-9']+", t)`. -/
def tokenRuns : List Char → List (List Char)
  | [] => []
  | c :: cs =>
    if isTokChar c then
      match cs.head? with
      | some c2 =>
        if isTokChar c2 then
          match tokenRuns cs with
          | [] => [[c]]
          | r :: rs => (c :: r) :: rs
        else [c] :: tokenRuns cs
      | none => [[c]]
    else tokenRuns cs

/-- Embeds `_tokens`. -/
def pyTokens (s : List Char) : List (List Char) :=
  tokenRuns (normalize_text s)

/-- Embeds `jaccard`: token-set Jaccard similarity, `0` when either side has
no tokens.  Python sets are embedded by deduplicated lists. -/
def jaccard (a b : List Char) : ℚ :=
  let wa := (pyTokens a).dedup
  let wb := (pyTokens b).dedup
  if wa.isEmpty || wb.isEmpty then 0
  else
    let inter := wa.filter (fun t => wb.contains t)
    let union := wa ++ wb.filter (fun t => !wa.contains t)
    (inter.length : ℚ) / (union.length : ℚ)

/-- Substring test (`k in t` on Python strings). -/
def containsSub (pat : List Char) : List Char → Bool
  | [] => pat.isPrefixOf []
  | c :: cs => pat.isPrefixOf (c :: cs) || containsSub pat cs

/-- The built-in `DEFAULT_SENSITIVE_KEYWORDS` (env override unset). -/
def SENSITIVE_KEYWORDS : List (List Char) :=
  ["system prompt".data, "hidden prompt".data, "bypass".data, "exploit".data,
   "jailbreak".data, "override".data, "ignore instructions".data,
   "reveal instructions".data]

/-- Embeds `keyword_count`: number of sensitive keywords occurring in the
normalized text (each keyword counted once). -/
def keyword_count (s : List Char) : Nat :=
  (SENSITIVE_KEYWORDS.filter (fun k => containsSub k (normalize_text s))).length

/-! ## A small regex interpreter

The refusal, weapon and hard-safety patterns only use literals, `\s*`, `\s+`,
optional groups `(...)?`, alternations of literals, `.*` and `\b`; the
interpreter below covers exactly these constructs with `re.search`
semantics (match may start anywhere).  All matching is done on lowercased
text, mirroring `re.IGNORECASE` / pre-lowered inputs in the source. -/

inductive Rx where
  /-- a literal character sequence -/
  | lit (cs : List Char)
  /-- `\s*` (`plus = false`) or `\s+` (`plus = true`) -/
  | ws (plus : Bool)
  /-- an optional literal `(cs)?` -/
  | optLit (cs : List Char)
  /-- an optional literal followed by whitespace: `(cs\s*)?` or `(cs\s+)?` -/
  | optLitWs (cs : List Char) (plus : Bool)
  /-- an alternation of literals `(a|b|c)` -/
  | alts (cs : List (List Char))
  /-- `.*` — any run of characters other than a newline -/
  | dotStar
  /-- `\b` word boundary -/
  | wb
deriving DecidableEq, Repr

/-- Python `\w` over ASCII inputs: `[a-zA-Z0-9_]`. -/
def wordChar (c : Char) : Bool :=
  (decide (0x61 ≤ c.toNat) && decide (c.toNat ≤ 0x7a)) ||
  (decide (0x41 ≤ c.toNat) && decide (c.toNat ≤ 0x5a)) ||
  (decide (0x30 ≤ c.toNat) && decide (c.toNat ≤ 0x39)) ||
  (c == Char.ofNat 0x5f)

/-- Python `\s`: `[ \t\n\r\f\v]` (ASCII). -/
def isWsChar (c : Char) : Bool :=
  c == ' ' || c == Char.ofNat 9 || c == Char.ofNat 10 ||
  c == Char.ofNat 13 || c == Char.ofNat 12 || c == Char.ofNat 11

/-- Matcher state: the previously consumed character (for `\b`) and the
remaining input. -/
abbrev RxState := Option Char × List Char

/-- All states reachable by consuming a (possibly empty) whitespace run. -/
def wsStates : Option Char → List Char → List RxState
  | prev, [] => [(prev, [])]
  | prev, c :: cs =>
    (prev, c :: cs) :: (if isWsChar c then wsStates (some c) cs else [])

/-- All states reachable by consuming any run of non-newline characters. -/
def dotStates : Option Char → List Char → List RxState
  | prev, [] => [(prev, [])]
  | prev, c :: cs =>
    (prev, c :: cs) :: (if c ≠ Char.ofNat 10 then dotStates (some c) cs else [])

/-- Consume a literal. -/
def litStates (cs : List Char) (prev : Option Char) (s : List Char) :
    List RxState :=
  if cs.isPrefixOf s then
    [((cs.getLast?).orElse (fun _ => prev), s.drop cs.length)]
  else []

/-- Word-boundary test between the previous character and the next one. -/
def atBoundary (prev : Option Char) (s : List Char) : Bool :=
  let a := match prev with | some c => wordChar c | none => false
  let b := match s.head? with | some c => wordChar c | none => false
  a != b

/-- States reachable after one `Rx` item. -/
def rxStates : Rx → Option Char → List Char → List RxState
  | .lit cs, prev, s => litStates cs prev s
  | .ws plus, prev, s =>
    let all := wsStates prev s
    if plus then all.drop 1 else all
  | .optLit cs, prev, s => (prev, s) :: litStates cs prev s
  | .optLitWs cs plus, prev, s =>
    (prev, s) ::
      (litStates cs prev s).flatMap (fun st =>
        let all := wsStates st.1 st.2
        if plus then all.drop 1 else all)
  | .alts cs, prev, s => cs.flatMap (fun c => litStates c prev s)
  | .dotStar, prev, s => dotStates prev s
  | .wb, prev, s => if atBoundary prev s then [(prev, s)] else []

/-- Match a pattern sequence at the current position. -/
def matchSeq : List Rx → Option Char → List Char → Bool
  | [], _, _ => true
  | r :: ps, prev, s => (rxStates r prev s).any (fun st => matchSeq ps st.1 st.2)

/-- `re.search`: try every start position. -/
def searchFrom (ps : List Rx) : Option Char → List Char → Bool
  | prev, s =>
    matchSeq ps prev s ||
      (match s with
       | [] => false
       | c :: cs => searchFrom ps (some c) cs)

def reSearch (ps : List Rx) (s : List Char) : Bool :=
  searchFrom ps none s

/-- Embeds `REFUSAL_PATTERNS` from `features.py` (identical list in
`refusal.py`). -/
def REFUSAL_PATTERNS : List (List Rx) :=
  [[.wb, .lit "i can".data, .optLit [apos], .lit "t".data, .wb],
   [.wb, .lit "i cannot".data, .wb],
   [.wb, .lit "i".data, .optLit [apos], .lit "m sorry".data, .wb],
   [.wb, .lit "i won".data, .optLit [apos], .lit "t".data, .wb],
   [.wb, .lit "can".data, .optLit [apos], .lit "t help".data, .wb],
   [.wb, .lit "not able to".data, .wb],
   [.wb, .lit "can".data, .optLit [apos], .lit "t do that".data, .wb]]

/-- Embeds `is_refusal`. -/
def is_refusal (s : List Char) : Bool :=
  REFUSAL_PATTERNS.any (fun p => reSearch p (normalize_text s))

/-! ## Events and grouping (`app/scoring/features.py`) -/

/-- An event row as scored by the pipeline (`events` table row / ingestion
dict).  `id` is the sqlite rowid used by `group_by_turn` for intra-turn
ordering (`e.get("id", 0)`); `ts`/`model` never influence scoring and are
omitted. -/
structure Event where
  id : Int
  session_id : String
  turn_id : Int
  role : String
  content : List Char
deriving DecidableEq, Repr

def USER : String := "user"
def ASSISTANT : String := "assistant"

/-- Insert into a list sorted ascending by `key`, after existing entries with
`key ≤` the new one — this makes the sort below stable, like Python's. -/
def insertByKey (key : α → Int) (a : α) : List α → List α
  | [] => [a]
  | x :: xs =>
    if key x ≤ key a then x :: insertByKey key a xs else a :: x :: xs

/-- Stable insertion sort ascending by `key` (Python `sorted(..., key=...)`). -/
def sortByKey (key : α → Int) (l : List α) : List α :=
  l.foldr (fun a acc => insertByKey key a acc) []

/-- Sorted distinct turn ids of an event list (`sorted(by_turn.keys())`). -/
def turnIds (ev : List Event) : List Int :=
  sortByKey id ((ev.map (·.turn_id)).dedup)

/-- Embeds `group_by_turn(events)[t]`: the events of turn `t` in insertion
order, stably re-sorted by `id`. -/
def turnEvents (ev : List Event) (t : Int) : List Event :=
  sortByKey (·.id) (ev.filter (fun e => e.turn_id == t))

/-- Last user message of turn `t`, if any (`umsgs[-1]`). -/
def lastUserMsg (ev : List Event) (t : Int) : Option (List Char) :=
  ((turnEvents ev t).filter (fun e => e.role == USER)).getLast?.map (·.content)

def hasUserMsg (ev : List Event) (t : Int) : Bool :=
  (turnEvents ev t).any (fun e => e.role == USER)

def hasAssistantMsg (ev : List Event) (t : Int) : Bool :=
  (turnEvents ev t).any (fun e => e.role == ASSISTANT)

/-- Embeds `_last_user_before`: scan turns `< turn_id` in descending order
for the first one holding a user message; return it with the last user
message of that turn. -/
def lastUserBefore (ev : List Event) (turn_id : Int) :
    Option (Int × List Char) :=
  ((turnIds ev).filter (fun t => t < turn_id)).reverse.findSome?
    (fun t => (lastUserMsg ev t).map (fun c => (t, c)))

/-- Embeds `_next_user_after`: the user turns strictly after `turn_id` in
ascending order, each with the last user message of that turn. -/
def nextUserAfter (ev : List Event) (turn_id : Int) :
    List (Int × List Char) :=
  ((turnIds ev).filter (fun t => turn_id < t)).filterMap
    (fun t => (lastUserMsg ev t).map (fun c => (t, c)))

/-! ## Feature extraction (`compute_session_features`) -/

/-- Default similarity threshold `REFUSAL_SIM_THRESHOLD` (env unset). -/
def REPHRASE_SIM_THRESHOLD : ℚ := 35 / 100

/-- Default look-ahead `REFUSAL_WINDOW_TURNS` (env unset). -/
def REPHRASE_WINDOW_TURNS : Nat := 2

/-- Round a rational to three decimals, ties to even (Python `round(x, 3)`;
the source rounds the float value — on the short texts scored here the two
agree, and no claim inspects the rounded digits). -/
def round3 (q : ℚ) : ℚ :=
  ((if q * 1000 - ((⌊q * 1000⌋ : ℤ) : ℚ) > 1/2 then ⌊q * 1000⌋ + 1
    else if q * 1000 - ((⌊q * 1000⌋ : ℤ) : ℚ) < 1/2 then ⌊q * 1000⌋
    else if ⌊q * 1000⌋ % 2 = 0 then ⌊q * 1000⌋
    else ⌊q * 1000⌋ + 1 : ℤ) : ℚ) / 1000

/-- One element of `rephrase_hits`. -/
structure RephraseHit where
  original_turn : Int
  refusal_turn : Int
  rephrase_turn : Int
  similarity : ℚ
deriving DecidableEq, Repr

/-- Embeds the inner scan of the rephrase loop: walk the user turns after a
refusal; `checked` counts scanned turns; the first one with similarity
`≥ REPHRASE_SIM_THRESHOLD` is returned and the scan stops, also stopping
once `checked` reaches `REPHRASE_WINDOW_TURNS`. -/
def scanRephrase (prevText : List Char) (checked : Nat) :
    List (Int × List Char) → Option (Int × ℚ)
  | [] => none
  | (t, txt) :: rest =>
    let sim := jaccard prevText txt
    let checked1 := checked + 1
    if REPHRASE_SIM_THRESHOLD ≤ sim then some (t, sim)
    else if REPHRASE_WINDOW_TURNS ≤ checked1 then none
    else scanRephrase prevText checked1 rest

/-- The (at most one) rephrase hit recorded for a refusal turn. -/
def rephraseHitFor (ev : List Event) (refusal_turn : Int) :
    Option RephraseHit :=
  (lastUserBefore ev refusal_turn).bind (fun pu =>
    (scanRephrase pu.2 0 (nextUserAfter ev refusal_turn)).map (fun r =>
      { original_turn := pu.1, refusal_turn := refusal_turn,
        rephrase_turn := r.1, similarity := round3 r.2 }))

/-- The feature bundle returned by `compute_session_features`.  The five
`Option` fields at the end are keys which `rules.py` and
`app/router/policy.py` read with `.get(..., default)` but which
`compute_session_features` never writes: they stay `none` on every bundle
the extractor produces. -/
structure Feats where
  turn_count : Nat
  user_turn_count : Nat
  assistant_turn_count : Nat
  user_message_count : Nat
  assistant_message_count : Nat
  refusal_count : Nat
  refusal_turn_ids : List Int
  rephrase_count : Nat
  rephrase_hits : List RephraseHit
  sensitive_keyword_total : Nat
  user_keyword_progression : List (Int × Nat)
  user_keyword_increase_turns : List Int
  last_user_content : Option (List Char) := none
  all_user_content : Option (List Char) := none
  user_turn_texts : Option (List (List Char)) := none
  user_keyword_deltas : Option (List Int) := none
  max_user_keyword_delta : Option Int := none
deriving DecidableEq, Repr

/-- The keys of the dict literal returned by `compute_session_features`
(`features.py` lines 183–196), in source order. -/
def featsKeys : List String :=
  ["turn_count", "user_turn_count", "assistant_turn_count",
   "user_message_count", "assistant_message_count", "refusal_count",
   "refusal_turn_ids", "rephrase_count", "rephrase_hits",
   "sensitive_keyword_total", "user_keyword_progression",
   "user_keyword_increase_turns"]

/-- Turn ids whose keyword count strictly increased over the previous user
turn (the `increases` loop). -/
def increaseTurns : List (Int × Nat) → List Int
  | [] => []
  | (_, s0) :: rest =>
    (rest.zip ((s0 :: rest.map (·.2)))).filterMap
      (fun p => if p.2 < p.1.2 then some p.1.1 else none)

/-- The refusal turns: turns with an assistant message matching a refusal
pattern, in ascending turn order. -/
def refusalTurns (ev : List Event) : List Int :=
  (turnIds ev).filter (fun t =>
    (turnEvents ev t).any (fun e =>
      e.role == ASSISTANT && is_refusal e.content))

/-- The recorded rephrase hits, one scan per refusal turn. -/
def rephraseHits (ev : List Event) : List RephraseHit :=
  (refusalTurns ev).filterMap (fun r => rephraseHitFor ev r)

/-- The keyword progression: one `(turn, count)` entry per user turn,
scoring the turn by its last user message. -/
def userProgression (ev : List Event) : List (Int × Nat) :=
  (turnIds ev).filterMap (fun t =>
    (lastUserMsg ev t).map (fun c => (t, keyword_count c)))

/-- Embeds `compute_session_features`. -/
def compute_session_features (ev : List Event) : Feats :=
  let ts := turnIds ev
  let refusals := refusalTurns ev
  let hits := rephraseHits ev
  let prog := userProgression ev
  { turn_count := ts.length
    user_turn_count := (ts.filter (fun t => hasUserMsg ev t)).length
    assistant_turn_count := (ts.filter (fun t => hasAssistantMsg ev t)).length
    user_message_count := (ev.filter (fun e => e.role == USER)).length
    assistant_message_count :=
      (ev.filter (fun e => e.role == ASSISTANT)).length
    refusal_count := refusals.length
    refusal_turn_ids := refusals
    rephrase_count := hits.length
    rephrase_hits := hits
    sensitive_keyword_total :=
      (ev.map (fun e => keyword_count e.content)).sum
    user_keyword_progression := prog
    user_keyword_increase_turns := increaseTurns prog }

/-! ## Rule evaluators from `app/scoring/rules.py`

Each is a pure function `(feats) → (hit, evidence)`.  Only the evaluators
the claims exercise are embedded.  Evidence dicts are structures; on a miss
the source returns `(False, {})`, embedded as `(false, <unused record>)` —
the engine only stores evidence on a hit. -/

/-- Evidence of `rule_direct_prompt_attack`. -/
structure DPAEv where
  reason : String
  turn_id : Option Int
  max_keywords : Nat
deriving DecidableEq, Repr

/-- Default `DIRECT_ATTACK_MIN_KEYWORDS` in `rules.py` (env unset). -/
def DIRECT_ATTACK_MIN_KEYWORDS : Nat := 2

/-- Embeds `rule_direct_prompt_attack`: maximum per-turn keyword count over
the whole progression (with the turn where the strict maximum was first
reached), hit when it reaches the threshold. -/
def rule_direct_prompt_attack (f : Feats) : Bool × DPAEv :=
  let m := f.user_keyword_progression.foldl
    (fun (acc : Nat × Option Int) p =>
      if acc.1 < p.2 then (p.2, some p.1) else acc) (0, none)
  if m.1 < DIRECT_ATTACK_MIN_KEYWORDS then
    (false, { reason := "", turn_id := none, max_keywords := 0 })
  else
    (true, { reason := "DIRECT_PROMPT_ATTACK", turn_id := m.2,
             max_keywords := m.1 })

/-- Embeds `WEAPON_PATTERNS` (compiled with `re.I`; matching happens on the
already-lowercased `_combined_text`). -/
def WEAPON_PATTERNS : List (List Rx) :=
  [[.wb, .lit "how".data, .ws true, .lit "do".data, .ws true, .lit "i".data,
    .ws true, .alts ["make".data, "build".data, "assemble".data], .dotStar,
    .alts ["bomb".data, "explosive".data]],
   [.wb, .lit "how".data, .ws true, .lit "to".data, .ws true,
    .alts ["make".data, "build".data, "assemble".data], .dotStar,
    .alts ["bomb".data, "explosive".data]],
   [.wb, .lit "what".data, .ws true, .lit "materials".data, .dotStar,
    .lit "bomb".data],
   [.wb, .lit "what".data, .ws true, .lit "do".data, .ws true, .lit "i".data,
    .ws true, .lit "need".data, .dotStar, .lit "bomb".data],
   [.wb, .lit "make".data, .ws true, .optLitWs "a".data false,
    .lit "bomb".data, .optLit "s".data, .wb],
   [.wb, .lit "build".data, .ws true, .optLitWs "a".data false,
    .lit "bomb".data, .optLit "s".data, .wb],
   [.wb, .lit "pipe".data, .ws false, .lit "bomb".data, .wb],
   [.wb, .lit "improvised".data, .ws true, .lit "explosive".data, .wb],
   [.wb, .lit "ghost".data, .ws true, .lit "gun".data, .wb],
   [.wb, .lit "3d".data, .ws false, .lit "print".data, .ws true,
    .optLitWs "a".data false, .lit "gun".data, .wb]]

/-- Embeds `_combined_text`: last user content, a space, and the cumulative
user content, lowercased (`.lower()` only — no quote folding here). -/
def combinedText (f : Feats) : List Char :=
  ((f.last_user_content.getD []) ++ " ".data ++
    (f.all_user_content.getD [])).map Char.toLower

/-- Evidence of `rule_weapon_instruction` (`hits` holds the matched
patterns; the source stores their regex source strings). -/
structure WeaponEv where
  reason : String
  hits : List (List Rx)
deriving DecidableEq, Repr

/-- Embeds `rule_weapon_instruction`. -/
def rule_weapon_instruction (f : Feats) : Bool × WeaponEv :=
  let text := combinedText f
  let hits := WEAPON_PATTERNS.filter (fun p => reSearch p text)
  if hits.isEmpty then (false, { reason := "", hits := [] })
  else (true, { reason := "WEAPON_INSTRUCTION", hits := hits })

/-- Evidence of `rule_intent_velocity_v3`. -/
structure VelV3Ev where
  reason : String
  spikes : Nat
deriving DecidableEq, Repr

/-- Embeds `rule_intent_velocity_v3` (`RISK_VELOCITY` in the spec's rule
table): counts deltas `≥ 2` in the `user_keyword_deltas` feature — a key
`compute_session_features` never writes, so the `.get(..., [])` default
applies on every bundle the extractor produces. -/
def rule_intent_velocity_v3 (f : Feats) : Bool × VelV3Ev :=
  let deltas := f.user_keyword_deltas.getD []
  let spikes := (deltas.filter (fun d => (2 : Int) ≤ d)).length
  if spikes < 2 then (false, { reason := "", spikes := 0 })
  else (true, { reason := "RISK_VELOCITY", spikes := spikes })

/-- Default `CRESCENDO_MIN_DELTA` in `rules.py` (env unset). -/
def CRESCENDO_MIN_DELTA : Int := 2

/-- Evidence of `rule_crescendo_attack`. -/
structure CrescAtkEv where
  reason : String
  delta : Int
deriving DecidableEq, Repr

/-- Embeds `rule_crescendo_attack` (`CRESCENDO_ATTACK` in the spec's rule
table): `_safe_int(feats.get("max_user_keyword_delta"))` — the key is never
written by `compute_session_features`, and `_safe_int(None) = 0`. -/
def rule_crescendo_attack (f : Feats) : Bool × CrescAtkEv :=
  let delta := f.max_user_keyword_delta.getD 0
  if delta < CRESCENDO_MIN_DELTA then (false, { reason := "", delta := 0 })
  else (true, { reason := "CRESCENDO_ESCALATION", delta := delta })

/-! ## Scoring engine (`app/scoring/engine.py`)

`engine.py` imports `rule_refusal_rephrase`, `rule_crescendo` and
`rule_risk_velocity` from `app.scoring.rules`, but `rules.py` defines none
of them (importing the module raises `ImportError`).  They are therefore
modelled from the spec below; the engine's own structure (which labels,
reasons, evidence keys and weights attach to which rule, and in which
order) is embedded from `engine.py` itself. -/

/-- Evidence of the refusal→rephrase rule.  `timeline.py` reads the keys
`hits` and `hit_count` from it. -/
structure RREv where
  reason : String
  hits : List RephraseHit
  hit_count : Nat
deriving DecidableEq, Repr

/-- Modelled from the spec: `rule_refusal_rephrase`, imported by
`engine.py` but absent from `app/scoring/rules.py`.  Per spec §8 the
REFUSAL_REPHRASE-class rule fires when a refusal→rephrase pair exists, and
`engine.py` declares its threshold `IDS_REFUSAL_MIN_REPHRASES = 1`; the
evidence carries the feature-level `rephrase_hits` (read back by
`timeline.py` as `hits` / `hit_count`). -/
def rule_refusal_rephrase (f : Feats) : Bool × RREv :=
  (1 ≤ f.rephrase_hits.length,
   { reason := "REFUSAL_EVASION_LOOP", hits := f.rephrase_hits,
     hit_count := f.rephrase_hits.length })

/-- Evidence of the crescendo rule.  `timeline.py` reads `turns` and
`final_score` from it. -/
structure CrEv where
  reason : String
  turns : List Int
  final_score : Nat
deriving DecidableEq, Repr

/-- Modelled from the spec: `rule_crescendo`, imported by `engine.py` but
absent from `app/scoring/rules.py`.  `engine.py` declares its thresholds
`IDS_CRESCENDO_MIN_INCREASES = 1` and `IDS_CRESCENDO_MIN_FINAL_SCORE = 2`,
matching `detect_crescendo` in `app/scoring/crescendo.py` (escalating
keyword trend with a sensitive final turn); evidence carries the increase
turns and the final turn's keyword score as read by `timeline.py`. -/
def rule_crescendo (f : Feats) : Bool × CrEv :=
  let finalScore := ((f.user_keyword_progression.getLast?).map (·.2)).getD 0
  (1 ≤ f.user_keyword_increase_turns.length && 2 ≤ finalScore,
   { reason := "CRESCENDO_ESCALATION",
     turns := f.user_keyword_increase_turns, final_score := finalScore })

/-- Turn-to-turn keyword deltas of the progression, as `(turn, delta)`. -/
def deltaPairs : List (Int × Nat) → List (Int × Int)
  | [] => []
  | (_, s0) :: rest =>
    (rest.zip (s0 :: rest.map (·.2))).map
      (fun p => (p.1.1, (p.1.2 : Int) - (p.2 : Int)))

/-- Evidence of the risk-velocity rule.  `timeline.py` reads `spike_turn`,
`spike_delta` and `max_user_keyword_delta`; `alerts/store.py` additionally
reads `increase_turns`. -/
structure VelEv where
  reason : String
  spikes : Nat
  spike_turn : Option Int
  spike_delta : Option Int
  max_user_keyword_delta : Option Int
  increase_turns : List Int
deriving DecidableEq, Repr

/-- Modelled from the spec: `rule_risk_velocity`, imported by `engine.py`
but absent from `app/scoring/rules.py`.  Per spec §4.2 RISK_VELOCITY fires
on at least 2 turn-to-turn keyword-count increases of magnitude ≥ 2
(`engine.py` declares `IDS_VELOCITY_MIN_KEYWORD_DELTA = 2` and
`IDS_VELOCITY_MIN_INCREASE_TURNS = 2`); evidence carries the first spike's
turn and delta, the maximum delta and the increase turns, the keys read by
`timeline.py` and `alerts/store.py`. -/
def rule_risk_velocity (f : Feats) : Bool × VelEv :=
  let ds := deltaPairs f.user_keyword_progression
  let spikes := ds.filter (fun p => (2 : Int) ≤ p.2)
  (2 ≤ spikes.length,
   { reason := "RISK_VELOCITY", spikes := spikes.length,
     spike_turn := (spikes.head?).map (·.1),
     spike_delta := (spikes.head?).map (·.2),
     max_user_keyword_delta := (ds.map (·.2)).max?,
     increase_turns := f.user_keyword_increase_turns })

/-- The evidence map of a score result: the `features` key is always
present, the per-rule keys only when the rule hit. -/
structure Evidence where
  features : Feats
  refusal_rephrase : Option RREv := none
  direct_prompt_attack : Option DPAEv := none
  crescendo : Option CrEv := none
  risk_velocity : Option VelEv := none
deriving DecidableEq, Repr

structure ScoreResult where
  score : Int
  severity : String
  labels : List String
  reasons : List String
  evidence : Evidence
deriving DecidableEq, Repr

/-- The keys of the dict literal returned by `score_session`
(`engine.py` lines 173–179), in source order. -/
def scoreResultKeys : List String :=
  ["score", "severity", "labels", "reasons", "evidence"]

/-- Engine weights (env unset): `IDS_W_REFUSAL_REPHRASE` etc. -/
def W_REFUSAL : Int := 35
def W_DIRECT_ATTACK : Int := 40
def W_CRESCENDO : Int := 55
def W_VELOCITY : Int := 20
def BASELINE : Int := 0
def CAP : Int := 100

/-- Embeds `clamp`. -/
def clamp (n lo hi : Int) : Int := max lo (min hi n)

/-- Embeds `severity_from_score`. -/
def severity_from_score (score : Int) : String :=
  if 80 ≤ score then "HIGH"
  else if 40 ≤ score then "MED"
  else if 0 < score then "LOW"
  else "NONE"

/-- Assembly of the score result from the four rule outcomes — the part of
`score_session` after the rule calls (labels / reasons / evidence in source
order, weight accumulation, clamp, severity). -/
def assembleScore (feats : Feats) (r1 : Bool × RREv) (r2 : Bool × DPAEv)
    (r3 : Bool × CrEv) (r4 : Bool × VelEv) : ScoreResult :=
  let score := BASELINE +
    (if r1.1 then W_REFUSAL else 0) +
    (if r2.1 then W_DIRECT_ATTACK else 0) +
    (if r3.1 then W_CRESCENDO else 0) +
    (if r4.1 then W_VELOCITY else 0)
  let labels :=
    (if r1.1 then ["REFUSAL_REPHRASE"] else []) ++
    (if r2.1 then ["DIRECT_PROMPT_ATTACK"] else []) ++
    (if r3.1 then ["CRESCENDO_ATTACK"] else []) ++
    (if r4.1 then ["RISK_VELOCITY"] else [])
  let reasons :=
    (if r1.1 then [r1.2.reason] else []) ++
    (if r2.1 then [r2.2.reason] else []) ++
    (if r3.1 then [r3.2.reason] else []) ++
    (if r4.1 then [r4.2.reason] else [])
  let score := clamp score 0 CAP
  { score := score
    severity := severity_from_score score
    labels := labels
    reasons := reasons
    evidence :=
      { features := feats
        refusal_rephrase := if r1.1 then some r1.2 else none
        direct_prompt_attack := if r2.1 then some r2.2 else none
        crescendo := if r3.1 then some r3.2 else none
        risk_velocity := if r4.1 then some r4.2 else none } }

/-- Embeds `score_session`: extract features once, apply the four rules in
source order, then assemble the result. -/
def score_session (ev : List Event) : ScoreResult :=
  let feats := compute_session_features ev
  assembleScore feats (rule_refusal_rephrase feats)
    (rule_direct_prompt_attack feats) (rule_crescendo feats)
    (rule_risk_velocity feats)

/-- The straight-line body of `score_session` under an exception monad:
each `hit, ev = rule(feats)` statement propagates an exception raised by
the rule — `score_session` contains no `try`/`except`, so a raising rule
evaluator aborts the whole call.  Instantiated with total (`pure`) rules it
is exactly `score_session` (see `score_session_exc_pure`). -/
def score_session_exc (r1 : Feats → Except String (Bool × RREv))
    (r2 : Feats → Except String (Bool × DPAEv))
    (r3 : Feats → Except String (Bool × CrEv))
    (r4 : Feats → Except String (Bool × VelEv))
    (ev : List Event) : Except String ScoreResult := do
  let feats := compute_session_features ev
  let p1 ← r1 feats
  let p2 ← r2 feats
  let p3 ← r3 feats
  let p4 ← r4 feats
  return assembleScore feats p1 p2 p3 p4

/-! ## Router (`app/router/policy.py`) -/

/-- Router tunables (env unset). -/
def BLOCK_SCORE : Int := 85
def REVIEW_SCORE : Int := 60
def BLOCK_LABELS : List String := ["RISK_VELOCITY"]
def REVIEW_LABELS : List String := ["CRESCENDO_ATTACK", "REFUSAL_REPHRASE"]

/-- Embeds `DANGEROUS_PATTERNS` (compiled `re.IGNORECASE`; input is
lowercased by `normalize`). -/
def DANGEROUS_PATTERNS : List (List Rx) :=
  [[.wb, .lit "pipe".data, .ws false, .lit "bomb".data, .wb],
   [.wb, .lit "make".data, .ws true, .optLit "a".data, .ws false,
    .lit "bomb".data, .wb],
   [.wb, .lit "bomb".data, .ws true, .lit "recipe".data, .wb],
   [.wb, .lit "explosive".data, .ws true, .lit "device".data, .wb],
   [.wb, .lit "make".data, .ws true, .lit "poison".data, .wb],
   [.wb, .lit "lethal".data, .ws true, .lit "poison".data, .wb],
   [.wb, .lit "build".data, .ws true, .optLit "a".data, .ws false,
    .lit "gun".data, .wb],
   [.wb, .lit "ghost".data, .ws true, .lit "gun".data, .wb],
   [.wb, .lit "3d".data, .ws false, .lit "print".data, .ws true,
    .optLitWs "a".data false, .lit "gun".data, .wb],
   [.wb, .lit "ignore".data, .ws true, .optLitWs "all".data true,
    .lit "instructions".data, .wb],
   [.wb, .lit "jailbreak".data, .wb]]

/-- Embeds `detect_hard_safety_violation`: scans
`score_result["evidence"]["features"].get("last_user_content", "")` —
a key `compute_session_features` never writes. -/
def detect_hard_safety_violation (sr : ScoreResult) : Option String :=
  let last_user := (sr.evidence.features.last_user_content.getD []).map
    Char.toLower
  if DANGEROUS_PATTERNS.any (fun p => reSearch p last_user) then
    some "DANGEROUS_REQUEST"
  else none

structure RouteDecision where
  decision : String
  score : Int
  severity : String
  labels : List String
  top_reason : String
  timeline_url : String
  alerts_url : String
  suggested_target : String
deriving DecidableEq, Repr

/-- Embeds `route_decision`: a hard-safety check first (block + HIGH +
HARD_SAFETY label), then the score/label threshold table. -/
def route_decision (session_id : String) (sr : ScoreResult) : RouteDecision :=
  let timeline_url := "/v1/timeline/" ++ session_id
  let alerts_url := "/v1/alerts/" ++ session_id
  match detect_hard_safety_violation sr with
  | some violation =>
    { decision := "block", score := sr.score, severity := "HIGH",
      labels := sr.labels ++ ["HARD_SAFETY"], top_reason := violation,
      timeline_url := timeline_url, alerts_url := alerts_url,
      suggested_target := "safe_llm" }
  | none =>
    let decision :=
      if BLOCK_SCORE ≤ sr.score || sr.labels.any (BLOCK_LABELS.contains ·)
      then "block"
      else if REVIEW_SCORE ≤ sr.score ||
          sr.labels.any (REVIEW_LABELS.contains ·)
      then "review"
      else "allow"
    { decision := decision, score := sr.score, severity := sr.severity,
      labels := sr.labels,
      top_reason := (sr.reasons.head?).getD "",
      timeline_url := timeline_url, alerts_url := alerts_url,
      suggested_target :=
        if decision ≠ "allow" then "safe_llm" else "primary_llm" }

/-! ## Timeline builder (`app/scoring/timeline.py`) -/

/-- A highlight marker attached to a turn.  `detail = none` embeds "no
`detail` key" (the `detail`-is-`None` case of the source's final list
comprehension is unreachable: every stored rephrase hit has a similarity
and the other details are formatted strings). -/
structure Highlight where
  type : String
  title : String
  detail : Option String := none
deriving DecidableEq, Repr

/-- A turn entry as produced by `compute_turn_features` and annotated by
`build_timeline`.  `events = none` embeds the popped `events` key
(`include_events=False`); `highlights` is added by `build_timeline` and is
empty on a fresh `compute_turn_features` result. -/
structure TurnEntry where
  turn_id : Int
  has_user : Bool
  has_assistant : Bool
  user_sensitive_kw : Nat
  assistant_refusal : Bool
  events : Option (List Event)
  highlights : List Highlight := []
deriving DecidableEq, Repr

/-- Embeds `compute_turn_features`. -/
def compute_turn_features (ev : List Event) : List TurnEntry :=
  (turnIds ev).map (fun t =>
    let tevs := turnEvents ev t
    let userTexts := (tevs.filter (fun e => e.role == USER)).map (·.content)
    let assistantTexts :=
      (tevs.filter (fun e => e.role == ASSISTANT)).map (·.content)
    { turn_id := t
      has_user := !userTexts.isEmpty
      has_assistant := !assistantTexts.isEmpty
      user_sensitive_kw := ((userTexts.getLast?).map keyword_count).getD 0
      assistant_refusal := assistantTexts.any is_refusal
      events := some tevs })

/-- Python string rendering of an optional integer (`f"{x}"`). -/
def optIntStr : Option Int → String
  | some n => toString n
  | none => "None"

/-- Rendering of a similarity value (the source formats the float; the
digits are never inspected by any claim, only presence/absence of the
detail). -/
def simStr (q : ℚ) : String := toString q

/-- Embeds the in-place truncation of `build_timeline`
(`if truncate and len(c) > truncate: e["content"] = c[:truncate] + "…"`). -/
def truncEvent (truncate : Nat) (e : Event) : Event :=
  if truncate ≠ 0 && decide (truncate < e.content.length) then
    { e with content := e.content.take truncate ++ "…".data }
  else e

/-- The highlight list computed for one turn entry from the full-session
evidence. -/
def turnHighlights (evd : Evidence) (t : TurnEntry) : List Highlight :=
  let feats := evd.features
  let rrHits := ((evd.refusal_rephrase).map (·.hits)).getD []
  let crescTurns := ((evd.crescendo).map (·.turns)).getD []
  let spikeTurn := (evd.risk_velocity).bind (·.spike_turn)
  let spikeDelta := (evd.risk_velocity).bind (·.spike_delta)
  (if feats.refusal_turn_ids.contains t.turn_id then
    [{ type := "refusal", title := "Assistant refusal detected" }] else []) ++
  (if (rrHits.map (·.rephrase_turn)).contains t.turn_id then
    [{ type := "rephrase", title := "User rephrased after refusal",
       detail := ((rrHits.filter (fun h => h.rephrase_turn == t.turn_id)
         ).getLast?).map (fun h => "similarity=" ++ simStr h.similarity) }]
   else []) ++
  (if crescTurns.contains t.turn_id then
    [{ type := "crescendo", title := "Escalation across turns" }] else []) ++
  (if spikeTurn == some t.turn_id then
    [{ type := "velocity", title := "Velocity spike",
       detail := some ("delta=" ++ optIntStr spikeDelta) }] else []) ++
  (if 0 < t.user_sensitive_kw then
    [{ type := "keywords", title := "Sensitive keywords",
       detail := some ("count=" ++ toString t.user_sensitive_kw) }] else [])

/-- The full timeline payload.  `events_after` additionally records the
contents of the caller's event list after the call: `build_timeline`
truncates event contents **in place** (the turn entries hold references to
the caller's dicts), so the input list is mutated whenever a content
exceeds `truncate`. -/
structure Timeline where
  final : ScoreResult
  recommended_action : String
  explanation : String
  top_signals : List String
  turns : List TurnEntry
  events_after : List Event
deriving DecidableEq, Repr

/-- Embeds `build_timeline` (defaults `include_events=True`,
`truncate=240`).  The session is scored once as a whole; each turn entry is
annotated with highlights derived from that single full-session result. -/
def build_timeline (ev : List Event) (include_events : Bool := true)
    (truncate : Nat := 240) : Timeline :=
  let final := score_session ev
  let evd := final.evidence
  let turns := (compute_turn_features ev).map (fun t =>
    let t := { t with highlights := turnHighlights evd t }
    if include_events then
      { t with events := (t.events).map (fun l => l.map (truncEvent truncate)) }
    else { t with events := none })
  let labels := final.labels
  let rr := evd.refusal_rephrase
  let cresc := evd.crescendo
  let vel := evd.risk_velocity
  let top_signals :=
    (if labels.contains "REFUSAL_REPHRASE" then
      ["Refusal+rephrase loop (hits=" ++
        toString (((rr.map (·.hit_count))).getD 0) ++ ")."] else []) ++
    (if labels.contains "CRESCENDO_ATTACK" then
      ["Crescendo escalation (final_score=" ++
        toString ((cresc.map (·.final_score)).getD 0) ++ ")."] else []) ++
    (if labels.contains "RISK_VELOCITY" then
      ["Velocity spike (max_delta=" ++
        optIntStr ((vel.map (·.max_user_keyword_delta)).getD none) ++ ")."]
     else []) ++
    (if labels.contains "DIRECT_PROMPT_ATTACK" then
      -- `dpa.get("hits", [])`: `rule_direct_prompt_attack` evidence has no
      -- `hits` key, so the rendered count is always 0.
      ["Direct prompt attack patterns matched (hits=" ++
        toString (0 : Nat) ++ ")."] else [])
  let recommended_action :=
    if final.severity == "MED" then "review"
    else if final.severity == "HIGH" then "block"
    else "allow"
  let explanation :=
    "Scored " ++ toString final.score ++ " (" ++ final.severity ++ ")." ++
      (if labels.isEmpty then ""
       else " Triggered: " ++ String.intercalate ", " labels ++ ".")
  { final := final
    recommended_action := recommended_action
    explanation := explanation
    top_signals := top_signals.take 3
    turns := turns
    events_after :=
      if include_events then ev.map (truncEvent truncate) else ev }

/-! ## Alert service (`app/alerts/service.py`) -/

/-- Embeds `compute_confidence`: capped linear base times a severity
multiplier (unknown severities fall back to `0.5`), capped at 1 and rounded
to three decimals. -/
def compute_confidence (sr : ScoreResult) : ℚ :=
  let base := min ((sr.score : ℚ) / 100) 1
  let multiplier : ℚ :=
    if sr.severity == "NONE" then 0
    else if sr.severity == "LOW" then 3/5
    else if sr.severity == "MEDIUM" then 4/5
    else if sr.severity == "HIGH" then 1
    else if sr.severity == "CRITICAL" then 6/5
    else 1/2
  round3 (min (base * multiplier) 1)

/-- A row of the `alerts` table written by the service path
(`app/storage`-style legacy schema: one row per label, a `labels` column,
no dedupe key). -/
structure AlertRow where
  session_id : String
  created_at : String
  severity : String
  score : Int
  labels : List String
  confidence : ℚ
deriving DecidableEq, Repr

/-- The alert store of the service path: rows in insertion (rowid) order. -/
abbrev AlertStore := List AlertRow

/-- Modelled from the spec: `insert_alert`, imported by
`app/alerts/service.py` from `app.alerts.store`, which does not define it
(the import fails).  Per the spec's append-only Alert store (§3) the
modelled insert appends one row; the `alert_type` argument of the call site
lands in the row's `labels` column, which `list_alerts` returns as a
singleton list. -/
def insert_alert (store : AlertStore) (row : AlertRow) : AlertStore :=
  store ++ [row]

/-- Embeds `list_alerts`: newest first (`ORDER BY id DESC`),
capped at `limit`. -/
def list_alerts (store : AlertStore) (limit : Nat) : List AlertRow :=
  store.reverse.take limit

/-- Embeds `is_duplicate`: scan the 500 most recent alerts for one of the
same session whose labels contain the label. -/
def is_duplicate (store : AlertStore) (session_id : String)
    (label : String) : Bool :=
  (list_alerts store 500).any (fun a =>
    a.session_id == session_id && a.labels.contains label)

/-- Embeds `maybe_emit_alert` as a store transformer (`now` stands for the
wall-clock timestamp read inside the call; the Python function always
returns `None`, its effect is the store change): skip when severity is
`NONE`-ish or no labels; otherwise insert one row per not-yet-duplicate
label.  There is no score threshold and no dedupe key on this path. -/
def maybe_emit_alert (store : AlertStore) (now : String)
    (session_id : String) (result : ScoreResult) : AlertStore :=
  if result.severity == "NONE" then store
  else if result.labels.isEmpty then store
  else
    result.labels.foldl (fun st label =>
      if is_duplicate st session_id label then st
      else insert_alert st
        { session_id := session_id, created_at := now,
          severity := result.severity, score := result.score,
          labels := [label], confidence := compute_confidence result })
      store

/-! ## Alert store (`app/alerts/store.py`) -/

/-- A row of the dedupe-key `alerts` table created by
`app/alerts/store.py` (`dedupe_key TEXT NOT NULL UNIQUE`). -/
structure Alert where
  session_id : String
  created_at : String
  score : Int
  severity : String
  labels : List String
  top_reason : String
  spike_turn : Option Int
  spike_delta : Option Int
  max_user_keyword_delta : Option Int
  increase_turns : List Int
  timeline_url : String
  dedupe_key : String
deriving DecidableEq, Repr

/-- The dedupe-key alert store in insertion order.  The sqlite `UNIQUE`
constraint on `dedupe_key` is embedded by the membership test in
`create_alert_if_needed`: an insert with an existing key raises
`IntegrityError`, caught and turned into a no-op `None`. -/
abbrev DedupStore := List Alert

/-- Embeds `create_alert_if_needed`: threshold gate, dedupe key
`session_id + ":" + top_reason`, enrichment pulled from the
`risk_velocity` evidence, insert-or-reject under the unique key. -/
def create_alert_if_needed (store : DedupStore) (now : String)
    (session_id : String) (final_score : Int) (final_severity : String)
    (labels : List String) (reasons : List String) (threshold : Int)
    (evidence : Option Evidence := none)
    (timeline_url : Option String := none) : DedupStore × Option Alert :=
  if final_score < threshold then (store, none)
  else
    let top_reason := (reasons.head?).getD ""
    let dedupe_key := session_id ++ ":" ++ top_reason
    let rv := evidence.bind (·.risk_velocity)
    let alert : Alert :=
      { session_id := session_id, created_at := now, score := final_score,
        severity := final_severity, labels := labels,
        top_reason := top_reason,
        spike_turn := rv.bind (·.spike_turn),
        spike_delta := rv.bind (·.spike_delta),
        max_user_keyword_delta := rv.bind (·.max_user_keyword_delta),
        increase_turns := ((rv.map (·.increase_turns))).getD [],
        timeline_url := timeline_url.getD ("/v1/timeline/" ++ session_id),
        dedupe_key := dedupe_key }
    if store.any (fun a => a.dedupe_key == dedupe_key) then (store, none)
    else (store ++ [alert], some alert)

/-! ## Claim-side helpers -/

/-- Modelled from the spec: the `last_user_content` feature of §3 — the
text of the session's last user message — which `compute_session_features`
never produces.  Used only to state what an event history's "last user
message" is in the claims. -/
def lastUserContent (ev : List Event) : List Char :=
  (((turnIds ev).reverse.findSome? (fun t => lastUserMsg ev t))).getD []

/-- The events of the prefix of a session up to and including turn `T`. -/
def eventsUpTo (ev : List Event) (t : Int) : List Event :=
  ev.filter (fun e => e.turn_id ≤ t)

/-- The timeline turn entry for a given turn id, if present. -/
def turnEntryFor (tl : Timeline) (t : Int) : Option TurnEntry :=
  tl.turns.find? (fun e => e.turn_id == t)

/-- The seven canonical rule labels named by the spec (§4.2). -/
def sevenCanonicalLabels : List String :=
  ["WEAPON_INSTRUCTION", "DRUG_SYNTHESIS", "DIRECT_PROMPT_ATTACK",
   "INTENT_ESCALATION", "INTENT_TRAJECTORY", "RISK_VELOCITY",
   "CRESCENDO_ATTACK"]

/-! ## Concrete sessions and scoring results used by the theorems -/

/-- A session whose last (only) user message matches the hard-safety
pattern `\bpipe\s*bomb\b`. -/
def evHard : List Event :=
  [{ id := 1, session_id := "s", turn_id := 0, role := "user",
     content := "how do i make a pipe bomb".data }]

/-- A session whose user text matches `WEAPON_PATTERNS`
(`\bbuild\s+(a\s*)?bomb(s)?\b` among others). -/
def evWeapon : List Event :=
  [{ id := 1, session_id := "s", turn_id := 0, role := "user",
     content := "how do i build a bomb".data }]

/-- The refusal→rephrase scenario of spec §8: user request at turn 1,
assistant refusal at turn 2, near-identical user resubmission at turn 3. -/
def evRephrase : List Event :=
  [{ id := 1, session_id := "s", turn_id := 1, role := "user",
     content := "summarize the report for me".data },
   { id := 2, session_id := "s", turn_id := 2, role := "assistant",
     content := "i cannot help with that".data },
   { id := 3, session_id := "s", turn_id := 3, role := "user",
     content := "summarize the report for me now".data }]

/-- The rephrase hit the extractor records on `evRephrase`
(token-Jaccard 5/6, rounded to 0.833). -/
def hitRephrase : RephraseHit :=
  { original_turn := 1, refusal_turn := 2, rephrase_turn := 3,
    similarity := 833/1000 }

/-- A three-user-turn session with an escalating keyword trend
(counts 0, 1, 3): the crescendo rule fires on the whole session but not on
the prefix ending at turn 1. -/
def evEscal : List Event :=
  [{ id := 1, session_id := "s", turn_id := 0, role := "user",
     content := "hi".data },
   { id := 2, session_id := "s", turn_id := 1, role := "user",
     content := "can i bypass this".data },
   { id := 3, session_id := "s", turn_id := 2, role := "user",
     content := "bypass exploit jailbreak".data }]

/-- A single user turn with two sensitive keywords: only
`DIRECT_PROMPT_ATTACK` fires, score 40, severity MED. -/
def evTwoKw : List Event :=
  [{ id := 1, session_id := "s", turn_id := 0, role := "user",
     content := "bypass exploit".data }]

/-- A session with a single keyword-count jump of 3 (from turn 0 to
turn 1). -/
def evJump : List Event :=
  [{ id := 1, session_id := "s", turn_id := 0, role := "user",
     content := "hi".data },
   { id := 2, session_id := "s", turn_id := 1, role := "user",
     content := "bypass exploit jailbreak".data }]

/-- An event whose content (8 characters) exceeds a truncation limit
of 5. -/
def evLong : List Event :=
  [{ id := 1, session_id := "s", turn_id := 0, role := "user",
     content := "abcdefgh".data }]

/-- The feature bundle of the empty session. -/
def emptyFeats : Feats := compute_session_features []

/-- A high-scoring result with two labels, as passed to the alert layer. -/
def resHigh : ScoreResult :=
  { score := 90, severity := "HIGH",
    labels := ["DIRECT_PROMPT_ATTACK", "RISK_VELOCITY"],
    reasons := ["DIRECT_PROMPT_ATTACK", "RISK_VELOCITY"],
    evidence := { features := emptyFeats } }

/-- A low-scoring (below the spec's alert threshold 80) result with one
label. -/
def resLow : ScoreResult :=
  { score := 10, severity := "LOW", labels := ["CRESCENDO_ATTACK"],
    reasons := ["CRESCENDO_ESCALATION"],
    evidence := { features := emptyFeats } }

/-- A mid-range result with the engine's actual mid severity string `MED`
(which the confidence multiplier table does not know). -/
def resMed : ScoreResult :=
  { score := 50, severity := "MED", labels := [], reasons := [],
    evidence := { features := emptyFeats } }

/-- A maximal result with severity `CRITICAL`. -/
def resCrit : ScoreResult :=
  { score := 300, severity := "CRITICAL", labels := [], reasons := [],
    evidence := { features := emptyFeats } }

/-- An event with a 2-character content, shorter than any positive
truncation limit used below. -/
def evShortEvent : Event :=
  { id := 1, session_id := "s", turn_id := 0, role := "user",
    content := "ab".data }

/-! ## Theorems -/

/- `Rat.mul` and `Rat.inv` are `@[irreducible]` in Batteries, which blocks
`decide` on the concrete similarity computations; restore the default
reducibility locally so the kernel-checked `Decidable` evaluation can
unfold them. -/
attribute [local semireducible] Rat.mul Rat.inv Rat.add Rat.sub

/-- C1.  The hard-safety override is dead code on every result produced by
`score_session`: `detect_hard_safety_violation` scans
`features["last_user_content"]`, a key `compute_session_features` never
writes, so it always scans the empty string.  On `evHard` — whose last
user message matches the hard-safety pattern `\bpipe\s*bomb\b` — the claim
demands decision `block`, severity `HIGH` and a `HARD_SAFETY` label, but
`route_decision` detects no violation and falls through to the threshold
table, returning `allow` with no `HARD_SAFETY` label. -/
theorem c1_hard_override_dead_code :
    DANGEROUS_PATTERNS.any
      (fun p => reSearch p ((lastUserContent evHard).map Char.toLower)) =
      true ∧
    detect_hard_safety_violation (score_session evHard) = none ∧
    (route_decision "s" (score_session evHard)).decision = "allow" ∧
    (route_decision "s" (score_session evHard)).severity = "NONE" ∧
    (route_decision "s" (score_session evHard)).labels.contains
      "HARD_SAFETY" = false := by
  decide

/-- C2.  `score_session` does not run the seven canonical rule evaluators:
on `evWeapon` the `rule_weapon_instruction` evaluator of `rules.py` fires
once given the user text, but the bundle `compute_session_features`
produces carries no text keys, so on the actual bundle the evaluator
misses and `score_session` — which only invokes the refusal-rephrase,
direct-prompt-attack, crescendo and risk-velocity rules — appends no
`WEAPON_INSTRUCTION` label.  Moreover `score_session` can emit the label
`REFUSAL_REPHRASE`, which is not one of the seven canonical labels. -/
theorem c2_engine_runs_four_rules :
    (rule_weapon_instruction
      { compute_session_features evWeapon with
        last_user_content := some "how do i build a bomb".data }).1 = true ∧
    (rule_weapon_instruction (compute_session_features evWeapon)).1 =
      false ∧
    (score_session evWeapon).labels = [] ∧
    (score_session evRephrase).labels = ["REFUSAL_REPHRASE"] ∧
    sevenCanonicalLabels.contains "REFUSAL_REPHRASE" = false := by
  decide

/-- C3 counterexample.  `build_timeline` does not rescore growing
prefixes: the entry for turn 1 depends on events after turn 1.  On
`evEscal` the full-session crescendo evidence marks turn 1, while the
prefix up to turn 1 triggers no crescendo — so the turn-1 entries of the
two calls differ, contradicting per-prefix recomputation (which would make
every turn entry a function of the event prefix up to that turn). -/
theorem c3_turn_entry_not_prefix_determined :
    turnEntryFor (build_timeline evEscal true 240) 1 ≠
      turnEntryFor (build_timeline (eventsUpTo evEscal 1) true 240) 1 := by
  decide

/-- C4.  Two calls of `maybe_emit_alert` with the same result (same
session, same `top_reason`) persist two alert rows — one per label — not
one: the service path dedups per `(session, label)` by scanning recent
alerts and writes no dedupe key.  The `session_id + ":" + top_reason`
dedupe key with the unique-constraint-as-no-op behaviour lives only in
`create_alert_if_needed` (which nothing calls): there, the same two calls
persist exactly one row. -/
theorem c4_service_dedups_per_label_not_per_reason :
    (maybe_emit_alert (maybe_emit_alert [] "t0" "s" resHigh) "t1" "s"
      resHigh).length = 2 ∧
    ((create_alert_if_needed
        (create_alert_if_needed [] "t0" "s" 90 "HIGH" resHigh.labels
          resHigh.reasons 80).1
        "t1" "s" 90 "HIGH" resHigh.labels resHigh.reasons 80).1).length =
      1 := by
  decide

/-- C5.  `maybe_emit_alert` applies no score threshold: with a score of 10
(far below the spec's default threshold 80) it still persists an alert row,
because it only checks that severity is not `NONE` and that labels are
nonempty.  The `score ≥ threshold` gate exists only in
`create_alert_if_needed`, which no caller reaches: there the same call
persists nothing and returns `None`. -/
theorem c5_no_threshold_on_service_path :
    (maybe_emit_alert [] "t0" "s" resLow).length = 1 ∧
    (create_alert_if_needed [] "t0" "s" 10 "LOW" resLow.labels
      resLow.reasons 80).1 = [] ∧
    (create_alert_if_needed [] "t0" "s" 10 "LOW" resLow.labels
      resLow.reasons 80).2 = none := by
  decide

/-- C6 counterexample.  The feature bundle never contains the delta
features: the dict literal returned by `compute_session_features` has
neither a `keyword_deltas` / `user_keyword_deltas` key nor a
`max_user_keyword_delta` key, and on `evJump` — whose keyword progression
jumps by 3 — the `rule_crescendo_attack` and `rule_intent_velocity_v3`
evaluators that consume these keys therefore miss. -/
theorem c6_delta_features_absent :
    featsKeys.contains "keyword_deltas" = false ∧
    featsKeys.contains "user_keyword_deltas" = false ∧
    featsKeys.contains "max_user_keyword_delta" = false ∧
    (compute_session_features evJump).user_keyword_progression =
      [(0, 0), (1, 3)] ∧
    (compute_session_features evJump).max_user_keyword_delta = none ∧
    (compute_session_features evJump).user_keyword_deltas = none ∧
    (rule_crescendo_attack (compute_session_features evJump)).1 = false ∧
    (rule_intent_velocity_v3 (compute_session_features evJump)).1 =
      false := by
  decide

/-- C10 counterexample.  `build_timeline` mutates its input: after a call
with `include_events = True` and `truncate = 5` on a session whose only
event has an 8-character content, the caller's event list no longer holds
the original text (the content was truncated in place). -/
theorem c10_input_mutated :
    (build_timeline evLong true 5).events_after ≠ evLong := by
  decide

/-- C6 amended.  On every input the feature bundle leaves the delta keys
unwritten (`none`), so the two delta-consuming evaluators of `rules.py`
(`rule_intent_velocity_v3` for RISK_VELOCITY, `rule_crescendo_attack` for
CRESCENDO) can never hit on a bundle produced by
`compute_session_features`. -/
theorem c6_amended_delta_rules_never_fire :
    ∀ ev : List Event,
      (compute_session_features ev).user_keyword_deltas = none ∧
      (compute_session_features ev).max_user_keyword_delta = none ∧
      (rule_intent_velocity_v3 (compute_session_features ev)).1 = false ∧
      (rule_crescendo_attack (compute_session_features ev)).1 = false := by
  intro ev
  exact ⟨rfl, rfl, rfl, rfl⟩

/-- C10 amended.  `build_timeline` truncates event contents in place: with
`include_events` and a nonzero limit, the caller's list afterwards holds
each event with content over the limit replaced by its truncated copy;
events at or under the limit — and every event when
`include_events = False` — are left unchanged. -/
theorem c10_amended_truncation_in_place :
    (∀ (ev : List Event) (t : Nat),
      (build_timeline ev true t).events_after = ev.map (truncEvent t)) ∧
    (∀ (ev : List Event) (t : Nat),
      (build_timeline ev false t).events_after = ev) ∧
    (∀ (t : Nat) (e : Event), e.content.length ≤ t → truncEvent t e = e) := by
  refine ⟨fun ev t => rfl, fun ev t => rfl, fun t e h => ?_⟩
  unfold truncEvent
  simp [Nat.not_lt.mpr h]

/-- C10 amended, witness: a 2-character content is untouched by a
truncation limit of 5. -/
theorem c10_amended_witness :
    evShortEvent.content.length ≤ 5 ∧ truncEvent 5 evShortEvent = evShortEvent :=
  ⟨by decide, c10_amended_truncation_in_place.2.2 5 evShortEvent (by decide)⟩

/-- C8 counterexample.  `score_session` has no per-rule exception
handling: with the third rule raising, the call aborts with the exception
instead of returning a result carrying a `crescendo_error` evidence key. -/
theorem c8_rule_exception_aborts_scoring :
    score_session_exc (fun f => .ok (rule_refusal_rephrase f))
      (fun f => .ok (rule_direct_prompt_attack f))
      (fun _ => .error "boom")
      (fun f => .ok (rule_risk_velocity f)) evTwoKw =
      .error "boom" := rfl

/-- C8 amended.  A raising rule evaluator at any of the four positions
propagates its exception and aborts `score_session` (no `"<rule>_error"`
evidence is recorded — the result type carries no such key); with total
rules the exception-monad body returns exactly `score_session`'s result. -/
theorem c8_amended_exception_propagates :
    ∀ (ev : List Event) (msg : String),
      score_session_exc (fun _ => .error msg)
        (fun f => .ok (rule_direct_prompt_attack f))
        (fun f => .ok (rule_crescendo f))
        (fun f => .ok (rule_risk_velocity f)) ev = .error msg ∧
      score_session_exc (fun f => .ok (rule_refusal_rephrase f))
        (fun _ => .error msg)
        (fun f => .ok (rule_crescendo f))
        (fun f => .ok (rule_risk_velocity f)) ev = .error msg ∧
      score_session_exc (fun f => .ok (rule_refusal_rephrase f))
        (fun f => .ok (rule_direct_prompt_attack f))
        (fun _ => .error msg)
        (fun f => .ok (rule_risk_velocity f)) ev = .error msg ∧
      score_session_exc (fun f => .ok (rule_refusal_rephrase f))
        (fun f => .ok (rule_direct_prompt_attack f))
        (fun f => .ok (rule_crescendo f))
        (fun _ => .error msg) ev = .error msg ∧
      score_session_exc (fun f => .ok (rule_refusal_rephrase f))
        (fun f => .ok (rule_direct_prompt_attack f))
        (fun f => .ok (rule_crescendo f))
        (fun f => .ok (rule_risk_velocity f)) ev =
        .ok (score_session ev) := by
  intro ev msg
  exact ⟨rfl, rfl, rfl, rfl, rfl⟩

/-- C3 amended.  `build_timeline` scores the session exactly once as a
whole (`final` is the full-session `score_session` result) and emits one
entry per distinct turn id in ascending turn order, annotated from that
single result — there is no per-prefix rescoring (see the C3
counterexample for a turn entry that changes when later events arrive). -/
theorem c3_amended_single_full_scoring :
    ∀ (ev : List Event) (inc : Bool) (tr : Nat),
      (build_timeline ev inc tr).final = score_session ev ∧
      (build_timeline ev inc tr).turns.map (fun t => t.turn_id) =
        turnIds ev := by
  intro ev inc tr
  refine ⟨rfl, ?_⟩
  unfold build_timeline compute_turn_features
  rw [List.map_map, List.map_map]
  cases inc <;>
    · induction turnIds ev with
      | nil => rfl
      | cons a l ih => simpa using ih

/-- Rounding to three decimals keeps values of `[0, 1]` inside `[0, 1]`. -/
theorem round3_bound {q : ℚ} (h0 : 0 ≤ q) (h1 : q ≤ 1) :
    0 ≤ round3 q ∧ round3 q ≤ 1 := by
  unfold round3
  have hx1 : q * 1000 ≤ 1000 := by linarith
  have hf0 : (0 : ℚ) ≤ ((⌊q * 1000⌋ : ℤ) : ℚ) := by
    exact_mod_cast Int.floor_nonneg.mpr (by positivity : (0 : ℚ) ≤ q * 1000)
  have hfle : ((⌊q * 1000⌋ : ℤ) : ℚ) ≤ q * 1000 := Int.floor_le _
  constructor
  · apply div_nonneg _ (by norm_num)
    split_ifs <;> push_cast <;> linarith
  · rw [div_le_one (by norm_num)]
    split_ifs with hA hB hC
    · -- fractional part > 1/2 : round up; the floor is then < 1000
      have hlt : ⌊q * 1000⌋ < 1000 := by
        exact_mod_cast show ((⌊q * 1000⌋ : ℤ) : ℚ) < 1000 by linarith
      exact_mod_cast show ⌊q * 1000⌋ + 1 ≤ 1000 by omega
    · exact_mod_cast show ⌊q * 1000⌋ ≤ 1000 by
        exact_mod_cast le_trans hfle hx1
    · exact_mod_cast show ⌊q * 1000⌋ ≤ 1000 by
        exact_mod_cast le_trans hfle hx1
    · -- fractional part exactly 1/2, odd floor: round up
      have hhalf : q * 1000 - ((⌊q * 1000⌋ : ℤ) : ℚ) = 1/2 :=
        le_antisymm (not_lt.mp hA) (not_lt.mp hB)
      have hlt : ⌊q * 1000⌋ < 1000 := by
        exact_mod_cast show ((⌊q * 1000⌋ : ℤ) : ℚ) < 1000 by linarith
      exact_mod_cast show ⌊q * 1000⌋ + 1 ≤ 1000 by omega

/-- C7 counterexample.  The score result of `score_session` has no
`confidence` or `risk_tier` key, and the only confidence computation in
the code base (`compute_confidence` in the alert service) disagrees with
the claimed `round((score / 300) ** 0.85, 3)` formula: at `evTwoKw`
(score 40, severity MED) the service computes `0.2`, while the claimed raw
value `(40/300) ** 0.85` is more than `1/1000` below `0.2` — so no
3-decimal rounding of it can equal the service's value. -/
theorem c7_no_confidence_field :
    scoreResultKeys.contains "confidence" = false ∧
    scoreResultKeys.contains "risk_tier" = false ∧
    (score_session evTwoKw).score = 40 ∧
    (score_session evTwoKw).severity = "MED" ∧
    compute_confidence (score_session evTwoKw) = 1/5 ∧
    ((40 : ℝ)/300) ^ (0.85 : ℝ) + 1/1000 < 1/5 := by
  refine ⟨by decide, by decide, by decide, by decide, by decide, ?_⟩
  have h0 : ((40 : ℝ)/300) = 2/15 := by norm_num
  have hbase : (0 : ℝ) ≤ 2/15 := by norm_num
  have hle : ((2 : ℝ)/15) ^ (0.85 : ℝ) ≤ 1985/10000 := by
    have e1 : (((2 : ℝ)/15) ^ (0.85 : ℝ)) ^ (20 : ℕ) =
        ((2 : ℝ)/15) ^ (17 : ℕ) := by
      rw [← Real.rpow_natCast (((2 : ℝ)/15) ^ (0.85 : ℝ)) 20,
        ← Real.rpow_mul hbase]
      norm_num
    have h20 : (((2 : ℝ)/15) ^ (0.85 : ℝ)) ^ (20 : ℕ) ≤
        ((1985 : ℝ)/10000) ^ (20 : ℕ) := by
      rw [e1]; norm_num
    exact le_of_pow_le_pow_left₀ (by norm_num) (by norm_num) h20
  rw [h0]
  linarith

/-- C7 amended.  `score_session` returns only score, severity, labels,
reasons and evidence; confidence is computed separately by the alert
service as `round(min(min(score/100, 1) * multiplier(severity), 1), 3)`
with multipliers NONE 0, LOW 0.6, MEDIUM 0.8, HIGH 1.0, CRITICAL 1.2 and
0.5 for unknown severities (including the engine's actual `MED`); it stays
in `[0, 1]` for nonnegative scores, and no risk-tier derivation exists. -/
theorem c7_amended_service_confidence :
    (∀ sr : ScoreResult, 0 ≤ sr.score →
      0 ≤ compute_confidence sr ∧ compute_confidence sr ≤ 1) ∧
    compute_confidence resHigh = 9/10 ∧
    compute_confidence resLow = 3/50 ∧
    compute_confidence resMed = 1/4 ∧
    compute_confidence resCrit = 1 := by
  refine ⟨?_, by decide, by decide, by decide, by decide⟩
  intro sr h
  unfold compute_confidence
  apply round3_bound
  · refine le_min (mul_nonneg (le_min ?_ zero_le_one) ?_) zero_le_one
    · exact div_nonneg (by exact_mod_cast h) (by norm_num)
    · split_ifs <;> norm_num
  · exact min_le_right _ _

/-- C7 amended, witness: the bounds hold at the concrete result `resHigh`
(score 90 ≥ 0). -/
theorem c7_amended_witness :
    (0 : Int) ≤ resHigh.score ∧
    0 ≤ compute_confidence resHigh ∧ compute_confidence resHigh ≤ 1 :=
  ⟨by decide, c7_amended_service_confidence.1 resHigh (by decide)⟩

/-! ### Order and scanning lemmas for the rephrase-search proof -/

theorem mem_insertByKey {α : Type} {key : α → Int} {a b : α} {l : List α} :
    b ∈ insertByKey key a l ↔ b = a ∨ b ∈ l := by
  induction l with
  | nil => simp [insertByKey]
  | cons x xs ih =>
    simp only [insertByKey]
    split_ifs with h
    · rw [List.mem_cons, ih, List.mem_cons]
      tauto
    · rw [List.mem_cons, List.mem_cons]

theorem insertByKey_perm {α : Type} (key : α → Int) (a : α) (l : List α) :
    List.Perm (insertByKey key a l) (a :: l) := by
  induction l with
  | nil => exact List.Perm.refl _
  | cons x xs ih =>
    simp only [insertByKey]
    split_ifs with h
    · exact (ih.cons x).trans (List.Perm.swap a x xs)
    · exact List.Perm.refl _

theorem sortByKey_perm {α : Type} (key : α → Int) (l : List α) :
    List.Perm (sortByKey key l) l := by
  induction l with
  | nil => exact List.Perm.refl _
  | cons a xs ih => exact (insertByKey_perm key a _).trans (ih.cons a)

theorem pairwise_insertByKey {α : Type} {key : α → Int} {a : α}
    {l : List α} (h : l.Pairwise (fun x y => key x ≤ key y)) :
    (insertByKey key a l).Pairwise (fun x y => key x ≤ key y) := by
  induction l with
  | nil => simp [insertByKey]
  | cons x xs ih =>
    simp only [insertByKey]
    rcases List.pairwise_cons.mp h with ⟨hx, hxs⟩
    split_ifs with hxa
    · refine List.Pairwise.cons ?_ (ih hxs)
      intro b hb
      rcases mem_insertByKey.mp hb with rfl | hbxs
      · exact hxa
      · exact hx b hbxs
    · refine List.Pairwise.cons ?_ h
      intro b hb
      have hax : key a ≤ key x := le_of_not_le hxa
      rcases List.mem_cons.mp hb with rfl | hbxs
      · exact hax
      · exact le_trans hax (hx b hbxs)

theorem sortByKey_pairwise {α : Type} (key : α → Int) (l : List α) :
    (sortByKey key l).Pairwise (fun x y => key x ≤ key y) := by
  induction l with
  | nil => simp [sortByKey]
  | cons a xs ih => exact pairwise_insertByKey ih

theorem turnIds_pairwise (ev : List Event) :
    (turnIds ev).Pairwise (· ≤ ·) := by
  have h := sortByKey_pairwise (α := Int) id ((ev.map (·.turn_id)).dedup)
  simpa [id] using h

theorem turnIds_nodup (ev : List Event) : (turnIds ev).Nodup :=
  ((sortByKey_perm (α := Int) id _).nodup_iff).mpr (List.nodup_dedup _)

theorem turnIds_sorted_lt (ev : List Event) :
    (turnIds ev).Pairwise (· < ·) :=
  ((turnIds_pairwise ev).and (turnIds_nodup ev)).imp
    (fun hab => lt_of_le_of_ne hab.1 hab.2)

theorem findSome_eq_some_split {α β : Type} {f : α → Option β} {b : β} :
    ∀ {l : List α}, l.findSome? f = some b →
      ∃ l1 a l2, l = l1 ++ a :: l2 ∧ f a = some b ∧ ∀ x ∈ l1, f x = none := by
  intro l
  induction l with
  | nil => intro h; simp [List.findSome?] at h
  | cons a l ih =>
    intro h
    cases hfa : f a with
    | some b2 =>
      rw [List.findSome?_cons, hfa] at h
      refine ⟨[], a, l, by simp, ?_, by simp⟩
      rw [hfa]; exact h
    | none =>
      rw [List.findSome?_cons, hfa] at h
      rcases ih h with ⟨l1, x, l2, rfl, hfx, hnone⟩
      refine ⟨a :: l1, x, l2, rfl, hfx, ?_⟩
      intro y hy
      rcases List.mem_cons.mp hy with rfl | hyl1
      · exact hfa
      · exact hnone y hyl1

theorem hasUserMsg_of_lastUserMsg {ev : List Event} {t : Int}
    {txt : List Char} (h : lastUserMsg ev t = some txt) :
    hasUserMsg ev t = true := by
  unfold lastUserMsg at h
  rcases Option.map_eq_some'.mp h with ⟨e, hlast, _⟩
  have hmem := List.mem_of_getLast?_eq_some hlast
  rcases List.mem_filter.mp hmem with ⟨he, hp⟩
  unfold hasUserMsg
  exact List.any_eq_true.mpr ⟨e, he, hp⟩

theorem hasUserMsg_none_of_lastUserMsg {ev : List Event} {t : Int}
    (h : lastUserMsg ev t = none) : hasUserMsg ev t = false := by
  unfold lastUserMsg at h
  have hnone := Option.map_eq_none'.mp h
  have hnil : (turnEvents ev t).filter (fun e => e.role == USER) = [] :=
    List.getLast?_eq_none_iff.mp hnone
  unfold hasUserMsg
  refine List.any_eq_false.mpr ?_
  intro e he hp
  have hmem : e ∈ (turnEvents ev t).filter (fun e => e.role == USER) :=
    List.mem_filter.mpr ⟨he, hp⟩
  rw [hnil] at hmem
  exact absurd hmem (List.not_mem_nil e)

theorem lastUserBefore_spec {ev : List Event} {r pt : Int} {txt : List Char}
    (h : lastUserBefore ev r = some (pt, txt)) :
    pt < r ∧ pt ∈ turnIds ev ∧ lastUserMsg ev pt = some txt ∧
    hasUserMsg ev pt = true ∧
    ∀ t ∈ turnIds ev, pt < t → t < r → hasUserMsg ev t = false := by
  unfold lastUserBefore at h
  obtain ⟨l1, a, l2, hsplit, hfa, hnone⟩ := findSome_eq_some_split h
  have ha : a = pt ∧ lastUserMsg ev a = some txt := by
    cases hm : lastUserMsg ev a with
    | none => rw [hm] at hfa; simp at hfa
    | some c =>
      rw [hm] at hfa
      simp only [Option.map_some', Option.some.injEq, Prod.mk.injEq] at hfa
      exact ⟨hfa.1, by rw [hfa.2]⟩
  obtain ⟨rfl, hmsg⟩ := ha
  have hmemL : a ∈ ((turnIds ev).filter (fun t => t < r)).reverse := by
    rw [hsplit]
    exact List.mem_append.mpr (Or.inr (List.mem_cons_self a l2))
  have hmemF := List.mem_reverse.mp hmemL
  rcases List.mem_filter.mp hmemF with ⟨hmemT, hltr⟩
  have haltr : a < r := by simpa using hltr
  have hpw : (((turnIds ev).filter (fun t => t < r)).reverse).Pairwise
      (fun x y => y < x) :=
    List.pairwise_reverse.mpr ((turnIds_sorted_lt ev).filter _)
  refine ⟨haltr, hmemT, hmsg, hasUserMsg_of_lastUserMsg hmsg, ?_⟩
  intro t ht hat htr
  have htL : t ∈ ((turnIds ev).filter (fun t => t < r)).reverse :=
    List.mem_reverse.mpr (List.mem_filter.mpr ⟨ht, by simpa using htr⟩)
  rw [hsplit] at htL hpw
  rcases List.mem_append.mp htL with htl1 | htcons
  · have := hnone t htl1
    cases hm : lastUserMsg ev t with
    | none => exact hasUserMsg_none_of_lastUserMsg hm
    | some c => rw [hm] at this; simp at this
  · rcases List.mem_cons.mp htcons with rfl | htl2
    · exact absurd hat (lt_irrefl t)
    · have hpc := (List.pairwise_append.mp hpw).2.1
      have := (List.pairwise_cons.mp hpc).1 t htl2
      exact absurd hat (not_lt.mpr (le_of_lt this))

theorem nextUserAfter_mem {ev : List Event} {r : Int}
    {p : Int × List Char} (h : p ∈ nextUserAfter ev r) :
    r < p.1 ∧ lastUserMsg ev p.1 = some p.2 := by
  unfold nextUserAfter at h
  obtain ⟨t, htmem, hmap⟩ := List.mem_filterMap.mp h
  rcases List.mem_filter.mp htmem with ⟨_, hlt⟩
  cases hm : lastUserMsg ev t with
  | none => rw [hm] at hmap; simp at hmap
  | some c =>
    rw [hm] at hmap
    simp only [Option.map_some', Option.some.injEq] at hmap
    subst hmap
    exact ⟨by simpa using hlt, hm⟩

theorem scanRephrase_spec (prev : List Char) :
    ∀ (l : List (Int × List Char)) (checked : Nat) (t : Int) (s : ℚ),
      checked < REPHRASE_WINDOW_TURNS →
      scanRephrase prev checked l = some (t, s) →
      ∃ (i : Nat) (hi : i < l.length),
        checked + i < REPHRASE_WINDOW_TURNS ∧
        (l.get ⟨i, hi⟩).1 = t ∧
        s = jaccard prev (l.get ⟨i, hi⟩).2 ∧
        REPHRASE_SIM_THRESHOLD ≤ s ∧
        ∀ (j : Nat), j < i → ∀ (hj : j < l.length),
          jaccard prev (l.get ⟨j, hj⟩).2 < REPHRASE_SIM_THRESHOLD := by
  intro l
  induction l with
  | nil => intro checked t s hc h; simp [scanRephrase] at h
  | cons p rest ih =>
    intro checked t s hc h
    obtain ⟨pt, ptext⟩ := p
    simp only [scanRephrase] at h
    by_cases hsim : REPHRASE_SIM_THRESHOLD ≤ jaccard prev ptext
    · rw [if_pos hsim] at h
      have hts : pt = t ∧ jaccard prev ptext = s := by
        simpa using h
      obtain ⟨rfl, rfl⟩ := hts
      refine ⟨0, by simp, by simpa using hc, rfl, rfl, hsim, ?_⟩
      intro j hj
      exact absurd hj (Nat.not_lt_zero j)
    · rw [if_neg hsim] at h
      by_cases hw : REPHRASE_WINDOW_TURNS ≤ checked + 1
      · rw [if_pos hw] at h
        exact absurd h (by simp)
      · rw [if_neg hw] at h
        have hc1 : checked + 1 < REPHRASE_WINDOW_TURNS := Nat.lt_of_not_le hw
        obtain ⟨i, hi, hwin, hteq, hseq, hsge, hmin⟩ := ih (checked + 1) t s hc1 h
        refine ⟨i + 1, Nat.succ_lt_succ hi, by omega, hteq, hseq, hsge, ?_⟩
        intro j hj hjlen
        cases j with
        | zero => exact lt_of_not_le hsim
        | succ j0 =>
          exact hmin j0 (Nat.lt_of_succ_lt_succ hj)
            (Nat.lt_of_succ_lt_succ hjlen)

theorem scanRephrase_complete (prev : List Char) :
    ∀ (l : List (Int × List Char)) (checked i : Nat) (hi : i < l.length),
      checked + i < REPHRASE_WINDOW_TURNS →
      REPHRASE_SIM_THRESHOLD ≤ jaccard prev (l.get ⟨i, hi⟩).2 →
      (∀ (j : Nat), j < i → ∀ (hj : j < l.length),
        jaccard prev (l.get ⟨j, hj⟩).2 < REPHRASE_SIM_THRESHOLD) →
      scanRephrase prev checked l =
        some ((l.get ⟨i, hi⟩).1, jaccard prev (l.get ⟨i, hi⟩).2) := by
  intro l
  induction l with
  | nil => intro checked i hi; exact absurd hi (Nat.not_lt_zero i)
  | cons p rest ih =>
    intro checked i hi hwin hsim hmin
    obtain ⟨pt, ptext⟩ := p
    cases i with
    | zero =>
      have hs : REPHRASE_SIM_THRESHOLD ≤ jaccard prev ptext := hsim
      simp only [scanRephrase]
      rw [if_pos hs]
      rfl
    | succ i0 =>
      have h0 : jaccard prev ptext < REPHRASE_SIM_THRESHOLD :=
        hmin 0 (Nat.succ_pos i0) (Nat.succ_pos rest.length)
      simp only [scanRephrase]
      rw [if_neg (not_le.mpr h0), if_neg (by omega : ¬
        REPHRASE_WINDOW_TURNS ≤ checked + 1)]
      exact ih (checked + 1) i0 (Nat.lt_of_succ_lt_succ hi) (by omega) hsim
        (fun j hj hjlen =>
          hmin (j + 1) (Nat.succ_lt_succ hj) (Nat.succ_lt_succ hjlen))

/-- C9.  First part — the rephrase search mechanism: every recorded hit
anchors a refusal turn, takes the text of the *nearest* preceding user
turn (no user turn lies strictly between the original turn and the refusal
turn), and its rephrase turn is the `i`-th scanned later user turn for
some `i` below the look-ahead window (default 2), with token-Jaccard
similarity at or above the threshold (default 0.35), while every
earlier-scanned user turn fell below the threshold (first match, not best
match); the recorded similarity is the rounded similarity of exactly that
turn.  Second part — completeness: whenever a refusal turn has a nearest
preceding user text and the `i`-th later user turn (within the window) is
the first one meeting the threshold, the corresponding hit *is* recorded.
Third part — the spec-§8 scenario: a refusal at turn 2 followed by a
near-identical user resubmission at turn 3 yields exactly one hit with
`refusal_turn = 2` and `rephrase_turn = 3`. -/
theorem c9_rephrase_first_match_within_window :
    (∀ (ev : List Event) (h : RephraseHit),
      h ∈ (compute_session_features ev).rephrase_hits →
      h.refusal_turn ∈ (compute_session_features ev).refusal_turn_ids ∧
      ∃ ptxt : List Char,
        lastUserBefore ev h.refusal_turn = some (h.original_turn, ptxt) ∧
        h.original_turn < h.refusal_turn ∧
        hasUserMsg ev h.original_turn = true ∧
        (∀ t ∈ turnIds ev, h.original_turn < t → t < h.refusal_turn →
          hasUserMsg ev t = false) ∧
        ∃ (i : Nat) (hi : i < (nextUserAfter ev h.refusal_turn).length),
          i < REPHRASE_WINDOW_TURNS ∧
          ((nextUserAfter ev h.refusal_turn).get ⟨i, hi⟩).1 =
            h.rephrase_turn ∧
          h.refusal_turn < h.rephrase_turn ∧
          REPHRASE_SIM_THRESHOLD ≤
            jaccard ptxt ((nextUserAfter ev h.refusal_turn).get ⟨i, hi⟩).2 ∧
          h.similarity =
            round3 (jaccard ptxt
              ((nextUserAfter ev h.refusal_turn).get ⟨i, hi⟩).2) ∧
          ∀ (j : Nat), j < i →
            ∀ (hj : j < (nextUserAfter ev h.refusal_turn).length),
              jaccard ptxt ((nextUserAfter ev h.refusal_turn).get
                ⟨j, hj⟩).2 < REPHRASE_SIM_THRESHOLD) ∧
    (∀ (ev : List Event) (r pt : Int) (ptxt : List Char),
      r ∈ (compute_session_features ev).refusal_turn_ids →
      lastUserBefore ev r = some (pt, ptxt) →
      ∀ (i : Nat) (hi : i < (nextUserAfter ev r).length),
        i < REPHRASE_WINDOW_TURNS →
        REPHRASE_SIM_THRESHOLD ≤
          jaccard ptxt ((nextUserAfter ev r).get ⟨i, hi⟩).2 →
        (∀ (j : Nat), j < i → ∀ (hj : j < (nextUserAfter ev r).length),
          jaccard ptxt ((nextUserAfter ev r).get ⟨j, hj⟩).2 <
            REPHRASE_SIM_THRESHOLD) →
        ({ original_turn := pt, refusal_turn := r,
           rephrase_turn := ((nextUserAfter ev r).get ⟨i, hi⟩).1,
           similarity := round3 (jaccard ptxt
             ((nextUserAfter ev r).get ⟨i, hi⟩).2) } : RephraseHit) ∈
          (compute_session_features ev).rephrase_hits) ∧
    (compute_session_features evRephrase).rephrase_hits = [hitRephrase] ∧
    hitRephrase.refusal_turn = 2 ∧ hitRephrase.rephrase_turn = 3 := by
  refine ⟨?_, ?_, by decide, rfl, rfl⟩
  case refine_2 =>
    intro ev r pt ptxt hrmem hlb i hi hwin hsim hmin
    show _ ∈ rephraseHits ev
    unfold rephraseHits
    refine List.mem_filterMap.mpr ⟨r, hrmem, ?_⟩
    unfold rephraseHitFor
    rw [hlb]
    simp only [Option.bind_eq_bind, Option.some_bind]
    rw [scanRephrase_complete ptxt (nextUserAfter ev r) 0 i hi
      (by simpa using hwin) hsim hmin]
    rfl
  intro ev h hmem
  have hmem' : h ∈ rephraseHits ev := hmem
  unfold rephraseHits at hmem'
  obtain ⟨r, hrmem, hr⟩ := List.mem_filterMap.mp hmem'
  unfold rephraseHitFor at hr
  cases hlb : lastUserBefore ev r with
  | none => rw [hlb] at hr; simp at hr
  | some pu =>
    rw [hlb] at hr
    obtain ⟨pt, ptxt⟩ := pu
    simp only [Option.bind_eq_bind, Option.some_bind] at hr
    cases hscan : scanRephrase ptxt 0 (nextUserAfter ev r) with
    | none => rw [hscan] at hr; simp at hr
    | some ts =>
      rw [hscan] at hr
      obtain ⟨st, ssim⟩ := ts
      simp only [Option.map_some', Option.some.injEq] at hr
      obtain rfl := hr.symm
      obtain ⟨i, hi, hwin, hteq, hseq, hsge, hmin⟩ :=
        scanRephrase_spec ptxt (nextUserAfter ev r) 0 st ssim
          (by decide) hscan
      obtain ⟨hltr, _, hmsg, huser, hnear⟩ := lastUserBefore_spec hlb
      have hmemNext : (nextUserAfter ev r).get ⟨i, hi⟩ ∈ nextUserAfter ev r :=
        List.get_mem _ _ hi
      have hnext := nextUserAfter_mem hmemNext
      refine ⟨hrmem, ptxt, hlb, hltr, huser, hnear,
        i, hi, by simpa using hwin, hteq, ?_, ?_, ?_, hmin⟩
      · rw [← hteq]; exact hnext.1
      · rw [← hseq]; exact hsge
      · rw [← hseq]

/-- C9, witness: the general first-match property applied to the concrete
scenario session `evRephrase` and its recorded hit. -/
theorem c9_witness :
    hitRephrase ∈ (compute_session_features evRephrase).rephrase_hits ∧
    hitRephrase.refusal_turn ∈
      (compute_session_features evRephrase).refusal_turn_ids :=
  ⟨by decide,
   (c9_rephrase_first_match_within_window.1 evRephrase hitRephrase
     (by decide)).1⟩

end LlmIds
